import Mathlib

/-!
# Verification of the genome-cartography topography pipeline (`geeni.py`)

Shallow embedding of the program: the loader (`load_data`), the
minimum-centimorgan filter (`df_filtered`), and the topography builder
(`create_topography`) with its match-group truncation, per-chromosome
500-point grid accumulation, terrain classification and trace emission.
Strengths and coordinates are rationals (the source manipulates Python
numbers; the spec describes them as exact reals).
-/

namespace Geeni

/-- One DNA match segment row, as parsed from the CSV columns
`Chromosome`, `Start Location`, `End Location`, `Centimorgans`, `Match Name`. -/
structure Row where
  chromosome : String
  startLocation : ℚ
  endLocation : ℚ
  centimorgans : ℚ
  matchName : String
deriving DecidableEq, Repr

/-- `max_position = 250_000_000`, the assumed maximum chromosome length. -/
def max_position : ℚ := 250000000

/-- The grid has 500 sample points (`np.linspace(0, max_position, 500)`). -/
def gridSize : ℕ := 500

/-- The `i`-th point of `np.linspace(0, max_position, 500)`:
`i * max_position / 499` for `i = 0, …, 499`. -/
def gridPoint (i : ℕ) : ℚ := i * max_position / 499

/-- `x_base = np.linspace(0, max_position, 500)` as the list of its 500 entries. -/
def x_base : List ℚ := (List.range gridSize).map gridPoint

/-- The mask condition `(x_base >= start) & (x_base <= end)` at grid index `i`. -/
def covers (r : Row) (i : ℕ) : Prop :=
  r.startLocation ≤ gridPoint i ∧ gridPoint i ≤ r.endLocation

instance (r : Row) (i : ℕ) : Decidable (covers r i) :=
  inferInstanceAs (Decidable (_ ∧ _))

/-- `y_base[mask] += cm` for one row: starting at grid index `k`, add the row's
centimorgans to every entry whose grid point lies in `[start, end]`. -/
def applyRow (r : Row) : ℕ → List ℚ → List ℚ
  | _, [] => []
  | k, v :: rest =>
      (if covers r k then v + r.centimorgans else v) :: applyRow r (k + 1) rest

/-- The height profile `y_base` of one chromosome: start from
`np.full_like(x_base, 0)` and apply every row of the dataframe whose
`Chromosome` equals `chrom`, in dataframe order. -/
def chromProfile (chrom : String) (df : List Row) : List ℚ :=
  (df.filter (fun r => r.chromosome == chrom)).foldl
    (fun y r => applyRow r 0 y) (List.replicate gridSize 0)

/-- `y_base.max()` of a (nonempty) numpy array; the `[]` case never arises
for the 500-entry profiles. -/
def arrayMax : List ℚ → ℚ
  | [] => 0
  | v :: rest => rest.foldl max v

/-- The marker colour chosen from the maximum height, exactly the source's
`if/elif` chain (comments in the source name the branches
Iso vuori / Kukkula / Saari / Meri). -/
def terrainColor (v : ℚ) : String :=
  if v > 20 then "firebrick"
  else if v > 10 then "forestgreen"
  else if v > 0 then "sandybrown"
  else "aliceblue"

/-- The terrain category named by the spec (and by the source's branch
comments: big mountain / hill / island / sea), same band structure as
`terrainColor`. -/
def terrainCategory (v : ℚ) : String :=
  if v > 20 then "mountain"
  else if v > 10 then "hill"
  else if v > 0 then "island"
  else "sea"

/-- The colour assigned to each terrain category. -/
def colorOfCategory (cat : String) : String :=
  if cat = "mountain" then "firebrick"
  else if cat = "hill" then "forestgreen"
  else if cat = "island" then "sandybrown"
  else "aliceblue"

/-- Round a rational to the nearest integer, halves to even (the rounding
used when formatting with one decimal digit). -/
def roundHalfEven (q : ℚ) : ℤ :=
  if q - ⌊q⌋ < 1 / 2 then ⌊q⌋
  else if 1 / 2 < q - ⌊q⌋ then ⌊q⌋ + 1
  else if ⌊q⌋ % 2 = 0 then ⌊q⌋ else ⌊q⌋ + 1

/-- Python's `f"{v:.1f}"` on the exact value: one decimal digit, rounding
half to even. (The source only formats the strictly positive heights.) -/
def fmt1 (v : ℚ) : String :=
  let n : ℤ := roundHalfEven (v * 10)
  toString (n / 10) ++ "." ++ toString (n % 10)

/-- The hover text `f"Chr {chrom}: {val:.1f} cM"`. -/
def markerText (chrom : String) (v : ℚ) : String :=
  "Chr " ++ chrom ++ ": " ++ fmt1 v ++ " cM"

/-- The line-trace name `f'Chr {chrom}'`. -/
def lineName (chrom : String) : String := "Chr " ++ chrom

/-- A plotly trace: either the black ridge line of a chromosome or its
marker trace (one marker per strictly positive grid position, one shared
colour, per-marker hover text). -/
inductive Trace where
  | line (xs : List ℚ) (y : ℤ) (zs : List ℚ) (name : String)
  | markers (xs : List ℚ) (y : ℤ) (zs : List ℚ) (color : String) (text : List String)
deriving DecidableEq

/-- `np.where(y_base > 0)[0]`: the ascending list of grid indices with
strictly positive height. -/
def positiveIndices (y : List ℚ) : List ℕ :=
  (List.range y.length).filter (fun i => decide (0 < y.getD i 0))

/-- The traces emitted for chromosome number `n` (the source iterates
`chrom` over the strings `"1"`, …, `"22"`; `int(chrom) = n`): always the
ridge line at depth `23 - n`, plus the marker trace when some height is
strictly positive. -/
def chromTraces (n : ℕ) (df : List Row) : List Trace :=
  if (positiveIndices (chromProfile (toString n) df)).isEmpty then
    [Trace.line x_base (23 - (n : ℤ)) (chromProfile (toString n) df)
      (lineName (toString n))]
  else
    [Trace.line x_base (23 - (n : ℤ)) (chromProfile (toString n) df)
      (lineName (toString n)),
     Trace.markers ((positiveIndices (chromProfile (toString n) df)).map gridPoint)
       (23 - (n : ℤ))
       ((positiveIndices (chromProfile (toString n) df)).map
         (fun i => (chromProfile (toString n) df).getD i 0))
       (terrainColor (arrayMax (chromProfile (toString n) df)))
       ((positiveIndices (chromProfile (toString n) df)).map
         (fun i => markerText (toString n) ((chromProfile (toString n) df).getD i 0)))]

/-- Helper for `uniqueList`: keep the elements not seen before. -/
def uniqueListAux : List String → List String → List String
  | [], _ => []
  | h :: t, seen =>
      if h ∈ seen then uniqueListAux t seen else h :: uniqueListAux t (h :: seen)

/-- `df['Match Name'].unique()`: distinct values in first-occurrence order. -/
def uniqueList (l : List String) : List String := uniqueListAux l []

/-- `df.groupby('Match Name')['Centimorgans'].sum()` for one match name. -/
def matchTotal (df : List Row) (m : String) : ℚ :=
  ((df.filter (fun r => r.matchName == m)).map Row.centimorgans).sum

/-- Descending-by-total ordering on match names, relative to a dataframe. -/
def byTotalDesc (df : List Row) (a b : String) : Prop :=
  matchTotal df b ≤ matchTotal df a

instance (df : List Row) : DecidableRel (byTotalDesc df) :=
  fun _ _ => inferInstanceAs (Decidable (_ ≤ _))

/-- `match_totals.sort_values(ascending=False).head(5).index.tolist()`:
the 5 match names of greatest total centimorgans.  pandas' quicksort
leaves the order of equal totals unspecified; the embedding fixes the tie
order by sorting the first-occurrence list stably. -/
def topMatches (df : List Row) : List String :=
  (List.insertionSort (byTotalDesc df) (uniqueList (df.map Row.matchName))).take 5

/-- The truncation branch of `create_topography`: when the file has more
than 10 distinct match names keep only the rows of the top-5 matches. -/
def survivors (df : List Row) : List Row :=
  if 10 < (uniqueList (df.map Row.matchName)).length then
    df.filter (fun r => decide (r.matchName ∈ topMatches df))
  else df

/-- Whether `st.warning(...)` fires: exactly when more than 10 distinct
match names are present. -/
def truncation_warning (df : List Row) : Bool :=
  decide (10 < (uniqueList (df.map Row.matchName)).length)

/-- `create_topography`: after the truncation step, emit the traces of
chromosomes `"1"`, …, `"22"` in ascending order. -/
def create_topography (df : List Row) : List Trace :=
  ((List.range 22).map (fun i => chromTraces (i + 1) (survivors df))).flatten

/-- The chromosome labels `[str(i) for i in range(1, 23)]`. -/
def chromosomes : List String := (List.range 22).map (fun i => toString (i + 1))

/-- `df[df['Centimorgans'] >= min_cm]`. -/
def df_filtered (min_cm : ℚ) (df : List Row) : List Row :=
  df.filter (fun r => decide (min_cm ≤ r.centimorgans))

/-- The required columns checked by `load_data`. -/
def required_cols : List String :=
  ["Chromosome", "Start Location", "End Location", "Centimorgans", "Match Name"]

/-- Outcome of `pd.read_csv` on the uploaded file: either an exception or
a header (column labels, possibly padded with whitespace) and parsed rows. -/
inductive ParseResult where
  | failure (msg : String)
  | success (header : List String) (rows : List Row)

/-- `load_data`: `None` on a parse exception, `None` when some required
column is missing from the whitespace-stripped header, the parsed rows
otherwise. -/
def load_data : ParseResult → Option (List Row)
  | .failure _ => none
  | .success header rows =>
      let cols := (header.map (fun s => s.trim))
      if required_cols.all (fun c => cols.contains c) then some rows else none

/-- The module-level UI flow: load, filter by the slider value, build the
scene; no scene is produced when `load_data` returns `None`. -/
def scene_of (p : ParseResult) (min_cm : ℚ) : Option (List Trace) :=
  (load_data p).map (fun rows => create_topography (df_filtered min_cm rows))

/-! ## Basic lemmas about the grid and the accumulation loop -/

theorem applyRow_length (r : Row) : ∀ (y : List ℚ) (k : ℕ),
    (applyRow r k y).length = y.length := by
  intro y
  induction y with
  | nil => intro k; rfl
  | cons v rest ih => intro k; simp [applyRow, ih]

theorem applyRow_getD (r : Row) : ∀ (y : List ℚ) (k i : ℕ), i < y.length →
    (applyRow r k y).getD i 0
      = y.getD i 0 + (if covers r (k + i) then r.centimorgans else 0) := by
  intro y
  induction y with
  | nil => intro k i h; simp at h
  | cons v rest ih =>
      intro k i h
      cases i with
      | zero =>
          simp only [applyRow, List.getD_cons_zero, Nat.add_zero]
          split <;> simp
      | succ i =>
          simp only [applyRow, List.getD_cons_succ]
          rw [ih (k + 1) i (by simpa using h)]
          have : k + 1 + i = k + (i + 1) := by omega
          rw [this]

theorem profile_foldl_length (l : List Row) : ∀ (y : List ℚ),
    (l.foldl (fun acc r => applyRow r 0 acc) y).length = y.length := by
  induction l with
  | nil => intro y; rfl
  | cons r rest ih => intro y; simp only [List.foldl_cons]; rw [ih, applyRow_length]

theorem profile_foldl_getD (l : List Row) : ∀ (y : List ℚ) (i : ℕ), i < y.length →
    (l.foldl (fun acc r => applyRow r 0 acc) y).getD i 0
      = y.getD i 0 + ((l.filter (fun r => decide (covers r i))).map Row.centimorgans).sum := by
  induction l with
  | nil => intro y i _; simp
  | cons r rest ih =>
      intro y i h
      simp only [List.foldl_cons]
      rw [ih (applyRow r 0 y) i (by rw [applyRow_length]; exact h),
        applyRow_getD r y 0 i h]
      by_cases hc : covers r i
      · simp only [Nat.zero_add, hc, if_true, List.filter_cons,
          decide_eq_true_eq, List.map_cons, List.sum_cons]
        ring
      · simp only [Nat.zero_add, hc, if_false, List.filter_cons,
          decide_eq_true_eq, List.map_cons, List.sum_cons]
        ring

theorem replicate_zero_getD (n i : ℕ) : (List.replicate n (0 : ℚ)).getD i 0 = 0 := by
  by_cases h : i < n
  · simp [List.getD_eq_getElem?_getD, List.getElem?_replicate, h]
  · simp [List.getD_eq_default, List.length_replicate, Nat.le_of_not_lt h]

theorem chromProfile_length (c : String) (df : List Row) :
    (chromProfile c df).length = gridSize := by
  unfold chromProfile
  rw [profile_foldl_length, List.length_replicate]

theorem chromProfile_getD (c : String) (df : List Row) (i : ℕ) (h : i < gridSize) :
    (chromProfile c df).getD i 0
      = ((df.filter (fun r => r.chromosome == c && decide (covers r i))).map
          Row.centimorgans).sum := by
  unfold chromProfile
  rw [profile_foldl_getD _ _ i (by simpa using h), replicate_zero_getD,
    List.filter_filter]
  rw [List.filter_congr (fun a _ => Bool.and_comm (decide (covers a i)) (a.chromosome == c))]
  ring

theorem gridPoint_zero : gridPoint 0 = 0 := by
  simp [gridPoint]

theorem gridPoint_nonneg (i : ℕ) : 0 ≤ gridPoint i := by
  unfold gridPoint max_position
  positivity

theorem gridPoint_last : gridPoint 499 = max_position := by
  norm_num [gridPoint, max_position]

theorem gridPoint_le_max {i : ℕ} (h : i ≤ 499) : gridPoint i ≤ max_position := by
  unfold gridPoint
  rw [div_le_iff₀ (by norm_num : (0 : ℚ) < 499)]
  have hi : (i : ℚ) ≤ 499 := by exact_mod_cast h
  have hm : (0 : ℚ) < max_position := by norm_num [max_position]
  nlinarith

theorem gridPoint_spacing (i : ℕ) :
    gridPoint (i + 1) - gridPoint i = max_position / 499 := by
  unfold gridPoint
  push_cast
  ring

theorem covers_of_full {r : Row} (hs : r.startLocation ≤ 0)
    (he : max_position ≤ r.endLocation) {i : ℕ} (h : i ≤ 499) : covers r i :=
  ⟨le_trans hs (gridPoint_nonneg i), le_trans (gridPoint_le_max h) he⟩

theorem not_covers_of_inverted {r : Row} (h : r.endLocation < r.startLocation)
    (i : ℕ) : ¬ covers r i := by
  rintro ⟨h1, h2⟩
  exact absurd (le_trans h1 h2) (not_le.mpr h)

theorem applyRow_of_not_covers {r : Row} (h : ∀ i, ¬ covers r i) :
    ∀ (y : List ℚ) (k : ℕ), applyRow r k y = y := by
  intro y
  induction y with
  | nil => intro k; rfl
  | cons v rest ih => intro k; simp [applyRow, h k, ih]

theorem applyRow_replicate_of_covers {r : Row} (h : ∀ i, i ≤ 499 → covers r i) :
    ∀ (n k : ℕ) (v : ℚ), k + n ≤ 500 →
      applyRow r k (List.replicate n v) = List.replicate n (v + r.centimorgans) := by
  intro n
  induction n with
  | zero => intro k v _; rfl
  | succ n ih =>
      intro k v hk
      simp only [List.replicate_succ, applyRow, h k (by omega), if_true]
      rw [ih (k + 1) v (by omega)]

theorem foldl_max_replicate (v : ℚ) : ∀ n : ℕ, (List.replicate n v).foldl max v = v := by
  intro n
  induction n with
  | zero => rfl
  | succ n ih => simp only [List.replicate_succ, List.foldl_cons, max_self, ih]

theorem arrayMax_replicate (n : ℕ) (v : ℚ) :
    arrayMax (List.replicate (n + 1) v) = v := by
  simp only [List.replicate_succ, arrayMax, foldl_max_replicate]

theorem getD_replicate_of_lt (v : ℚ) {n i : ℕ} (h : i < n) :
    (List.replicate n v).getD i 0 = v := by
  simp [List.getD_eq_getElem?_getD, List.getElem?_replicate, h]

theorem positiveIndices_replicate {n : ℕ} {v : ℚ} (hv : 0 < v) :
    positiveIndices (List.replicate n v) = List.range n := by
  unfold positiveIndices
  rw [List.length_replicate]
  apply List.filter_eq_self.mpr
  intro i hi
  rw [getD_replicate_of_lt v (List.mem_range.mp hi)]
  simpa using hv

theorem mem_positiveIndices {y : List ℚ} {i : ℕ} :
    i ∈ positiveIndices y ↔ i < y.length ∧ 0 < y.getD i 0 := by
  unfold positiveIndices
  simp [List.mem_filter, List.mem_range]

/-! ## Lemmas about match-group truncation -/

theorem mem_uniqueListAux (a : String) :
    ∀ (l seen : List String), a ∈ uniqueListAux l seen ↔ a ∈ l ∧ a ∉ seen := by
  intro l
  induction l with
  | nil => intro seen; simp [uniqueListAux]
  | cons h t ih =>
      intro seen
      by_cases hm : h ∈ seen
      · rw [uniqueListAux, if_pos hm, ih, List.mem_cons]
        constructor
        · rintro ⟨ht, hs⟩
          exact ⟨Or.inr ht, hs⟩
        · rintro ⟨hht, hs⟩
          rcases hht with rfl | ht
          · exact absurd hm hs
          · exact ⟨ht, hs⟩
      · rw [uniqueListAux, if_neg hm, List.mem_cons, ih, List.mem_cons, List.mem_cons]
        by_cases hA : a = h
        · subst hA
          simp [hm]
        · simp [hA]

theorem nodup_uniqueListAux : ∀ (l seen : List String), (uniqueListAux l seen).Nodup := by
  intro l
  induction l with
  | nil => intro seen; simp [uniqueListAux]
  | cons h t ih =>
      intro seen
      by_cases hm : h ∈ seen
      · rw [uniqueListAux, if_pos hm]
        exact ih seen
      · rw [uniqueListAux, if_neg hm]
        refine List.nodup_cons.mpr ⟨?_, ih _⟩
        intro hcon
        exact ((mem_uniqueListAux h t (h :: seen)).mp hcon).2 (List.mem_cons_self h _)

theorem mem_uniqueList (a : String) (l : List String) : a ∈ uniqueList l ↔ a ∈ l := by
  unfold uniqueList
  rw [mem_uniqueListAux]
  simp

theorem nodup_uniqueList (l : List String) : (uniqueList l).Nodup :=
  nodup_uniqueListAux l []

theorem length_uniqueList (l : List String) :
    (uniqueList l).length = l.toFinset.card := by
  have h1 : (uniqueList l).toFinset = l.toFinset := by
    ext a
    simp [List.mem_toFinset, mem_uniqueList]
  rw [← List.toFinset_card_of_nodup (nodup_uniqueList l), h1]

theorem length_uniqueList_le_cons (x : String) (l : List String) :
    (uniqueList l).length ≤ (uniqueList (x :: l)).length := by
  rw [length_uniqueList, length_uniqueList, List.toFinset_cons]
  exact Finset.card_le_card (Finset.subset_insert x l.toFinset)

instance (df : List Row) : IsTotal String (byTotalDesc df) :=
  ⟨fun _ _ => le_total _ _⟩

instance (df : List Row) : IsTrans String (byTotalDesc df) :=
  ⟨fun _ _ _ h1 h2 => le_trans h2 h1⟩

theorem topMatches_subset {df : List Row} {m : String} (hm : m ∈ topMatches df) :
    m ∈ uniqueList (df.map Row.matchName) :=
  (List.perm_insertionSort (byTotalDesc df) _).subset (List.take_subset 5 _ hm)

theorem nodup_topMatches (df : List Row) : (topMatches df).Nodup :=
  ((List.perm_insertionSort (byTotalDesc df) _).nodup_iff.mpr
    (nodup_uniqueList _)).sublist (List.take_sublist 5 _)

theorem topMatches_length {df : List Row}
    (h : 10 < (uniqueList (df.map Row.matchName)).length) :
    (topMatches df).length = 5 := by
  unfold topMatches
  rw [List.length_take, List.length_insertionSort]
  omega

theorem topMatches_sorted (df : List Row) :
    (topMatches df).Pairwise (byTotalDesc df) :=
  (List.sorted_insertionSort (byTotalDesc df) _).sublist (List.take_sublist 5 _)

theorem topMatches_ge {df : List Row} {m m' : String} (hm : m ∈ topMatches df)
    (hm' : m' ∈ uniqueList (df.map Row.matchName)) (hnot : m' ∉ topMatches df) :
    matchTotal df m' ≤ matchTotal df m := by
  have hsort : (List.insertionSort (byTotalDesc df)
      (uniqueList (df.map Row.matchName))).Pairwise (byTotalDesc df) :=
    List.sorted_insertionSort _ _
  rw [← List.take_append_drop 5 (List.insertionSort (byTotalDesc df)
    (uniqueList (df.map Row.matchName)))] at hsort
  have hm'S : m' ∈ List.insertionSort (byTotalDesc df)
      (uniqueList (df.map Row.matchName)) :=
    (List.perm_insertionSort (byTotalDesc df) _).symm.subset hm'
  rw [← List.take_append_drop 5 (List.insertionSort (byTotalDesc df)
    (uniqueList (df.map Row.matchName))), List.mem_append] at hm'S
  have hm'drop : m' ∈ (List.insertionSort (byTotalDesc df)
      (uniqueList (df.map Row.matchName))).drop 5 := by
    rcases hm'S with hle | hgt
    · exact absurd hle hnot
    · exact hgt
  exact (List.pairwise_append.mp hsort).2.2 m hm m' hm'drop

theorem survivors_of_trunc {df : List Row}
    (h : 10 < (uniqueList (df.map Row.matchName)).length) :
    survivors df = df.filter (fun r => decide (r.matchName ∈ topMatches df)) := by
  unfold survivors
  rw [if_pos h]

theorem mem_survivors_of_trunc {df : List Row} {r : Row}
    (h : 10 < (uniqueList (df.map Row.matchName)).length) :
    r ∈ survivors df ↔ r ∈ df ∧ r.matchName ∈ topMatches df := by
  rw [survivors_of_trunc h]
  simp [List.mem_filter]

theorem survivors_of_small {df : List Row}
    (h : ¬ 10 < (uniqueList (df.map Row.matchName)).length) :
    survivors df = df := by
  unfold survivors
  rw [if_neg h]

theorem length_unique_survivors {df : List Row}
    (h : 10 < (uniqueList (df.map Row.matchName)).length) :
    (uniqueList ((survivors df).map Row.matchName)).length = 5 := by
  have hmemiff : ∀ m, m ∈ (survivors df).map Row.matchName ↔ m ∈ topMatches df := by
    intro m
    constructor
    · intro hm
      rcases List.mem_map.mp hm with ⟨r, hr, rfl⟩
      exact ((mem_survivors_of_trunc h).mp hr).2
    · intro hm
      have hmem : m ∈ df.map Row.matchName :=
        (mem_uniqueList m _).mp (topMatches_subset hm)
      rcases List.mem_map.mp hmem with ⟨r, hr, rfl⟩
      exact List.mem_map.mpr ⟨r, (mem_survivors_of_trunc h).mpr ⟨hr, hm⟩, rfl⟩
  have hperm : List.Perm (uniqueList ((survivors df).map Row.matchName)) (topMatches df) :=
    (List.perm_ext_iff_of_nodup (nodup_uniqueList _) (nodup_topMatches df)).mpr
      (fun m => (mem_uniqueList m _).trans (hmemiff m))
  rw [hperm.length_eq, topMatches_length h]

theorem survivors_subset (df : List Row) : ∀ r ∈ survivors df, r ∈ df := by
  intro r hr
  unfold survivors at hr
  split at hr
  · exact List.mem_of_mem_filter hr
  · exact hr

/-! ## Lemmas about trace emission -/

/-- Recognise the ridge-line traces. -/
def isLineB : Trace → Bool
  | .line _ _ _ _ => true
  | .markers _ _ _ _ _ => false

/-- The height data of the first trace of the figure, when it is a line. -/
def firstLineZ : List Trace → Option (List ℚ)
  | .line _ _ zs _ :: _ => some zs
  | _ => none

theorem chromTraces_filter_line (n : ℕ) (d : List Row) :
    (chromTraces n d).filter isLineB
      = [Trace.line x_base (23 - (n : ℤ)) (chromProfile (toString n) d)
          (lineName (toString n))] := by
  unfold chromTraces
  split <;> simp [isLineB]

theorem filter_flatten_traces (p : Trace → Bool) :
    ∀ (L : List (List Trace)), L.flatten.filter p = (L.map (List.filter p)).flatten := by
  intro L
  induction L with
  | nil => rfl
  | cons l rest ih => simp [List.filter_append, ih]

theorem flatten_map_singleton {α β : Type} (g : α → β) :
    ∀ (l : List α), ((l.map (fun x => [g x])).flatten) = l.map g := by
  intro l
  induction l with
  | nil => rfl
  | cons x rest ih => simp [ih]

theorem create_topography_filter_line (df : List Row) :
    (create_topography df).filter isLineB
      = (List.range 22).map (fun i =>
          Trace.line x_base (23 - ((i + 1 : ℕ) : ℤ))
            (chromProfile (toString (i + 1)) (survivors df))
            (lineName (toString (i + 1)))) := by
  unfold create_topography
  rw [filter_flatten_traces, List.map_map]
  have h : ((fun l => List.filter isLineB l) ∘ fun i => chromTraces (i + 1) (survivors df))
      = fun i => [Trace.line x_base (23 - ((i + 1 : ℕ) : ℤ))
          (chromProfile (toString (i + 1)) (survivors df))
          (lineName (toString (i + 1)))] := by
    funext i
    exact chromTraces_filter_line (i + 1) (survivors df)
  rw [h, flatten_map_singleton]

theorem chromTraces_mem_create {df : List Row} {n : ℕ} (h1 : 1 ≤ n) (h2 : n ≤ 22) :
    ∀ t ∈ chromTraces n (survivors df), t ∈ create_topography df := by
  intro t ht
  unfold create_topography
  rw [List.mem_flatten]
  refine ⟨chromTraces n (survivors df), ?_, ht⟩
  rw [List.mem_map]
  exact ⟨n - 1, List.mem_range.mpr (by omega), by rw [Nat.sub_add_cancel h1]⟩

theorem create_topography_decomp (df : List Row) :
    create_topography df
      = chromTraces 1 (survivors df)
        ++ ((List.range 21).map (fun i => chromTraces (i + 2) (survivors df))).flatten := by
  unfold create_topography
  rw [show (22 : ℕ) = 21 + 1 from rfl, List.range_succ_eq_map]
  simp only [List.map_cons, List.map_map, List.flatten_cons, Function.comp]
  rfl

theorem firstLineZ_create (df : List Row) :
    firstLineZ (create_topography df) = some (chromProfile "1" (survivors df)) := by
  rw [create_topography_decomp]
  unfold chromTraces
  split <;> rfl

/-! ## Lemmas about rows that contribute nothing -/

theorem chromProfile_cons_ne {r : Row} {c : String} (h : r.chromosome ≠ c)
    (df : List Row) : chromProfile c (r :: df) = chromProfile c df := by
  unfold chromProfile
  rw [List.filter_cons_of_neg (by simpa using h)]

theorem chromProfile_cons_inverted {r : Row} (h : r.endLocation < r.startLocation)
    (c : String) (df : List Row) : chromProfile c (r :: df) = chromProfile c df := by
  by_cases hc : r.chromosome = c
  · unfold chromProfile
    rw [List.filter_cons_of_pos (by simpa using hc)]
    simp only [List.foldl_cons]
    rw [applyRow_of_not_covers (not_covers_of_inverted h)]
  · exact chromProfile_cons_ne hc df

theorem chromTraces_congr {n : ℕ} {d1 d2 : List Row}
    (h : chromProfile (toString n) d1 = chromProfile (toString n) d2) :
    chromTraces n d1 = chromTraces n d2 := by
  unfold chromTraces
  rw [h]

theorem toString_mem_chromosomes {n : ℕ} (h1 : 1 ≤ n) (h2 : n ≤ 22) :
    toString n ∈ chromosomes := by
  unfold chromosomes
  rw [List.mem_map]
  exact ⟨n - 1, List.mem_range.mpr (by omega), by rw [Nat.sub_add_cancel h1]⟩

/-! ## Evaluating profiles of fully covering rows -/

theorem foldl_full_rows :
    ∀ (l : List Row),
      (∀ r ∈ l, r.startLocation ≤ 0 ∧ max_position ≤ r.endLocation) →
      ∀ v : ℚ,
        l.foldl (fun y r => applyRow r 0 y) (List.replicate gridSize v)
          = List.replicate gridSize (v + (l.map Row.centimorgans).sum) := by
  intro l
  induction l with
  | nil => intro _ v; simp
  | cons r rest ih =>
      intro h v
      simp only [List.foldl_cons]
      rw [applyRow_replicate_of_covers
        (fun i hi => covers_of_full (h r (List.mem_cons_self r rest)).1
          (h r (List.mem_cons_self r rest)).2 hi)
        gridSize 0 v (by simp [gridSize])]
      rw [ih (fun r' hr' => h r' (List.mem_cons_of_mem r hr')) (v + r.centimorgans)]
      simp only [List.map_cons, List.sum_cons]
      congr 1
      ring

theorem chromProfile_of_full (c : String) (df : List Row)
    (h : ∀ r ∈ df.filter (fun r => r.chromosome == c),
      r.startLocation ≤ 0 ∧ max_position ≤ r.endLocation) :
    chromProfile c df
      = List.replicate gridSize
          (((df.filter (fun r => r.chromosome == c)).map Row.centimorgans).sum) := by
  unfold chromProfile
  rw [foldl_full_rows _ h 0, zero_add]

/-! ## Concrete inputs used by the claims -/

/-- A row on chromosome `"1"` covering the whole grid. -/
def rowFull (m : String) (cm : ℚ) : Row :=
  ⟨"1", 0, 250000000, cm, m⟩

/-- A row whose start position exceeds its end position. -/
def rowInv : Row := ⟨"1", 2, 1, 100, "K"⟩

/-- A row on a chromosome label outside `"1"`, …, `"22"`. -/
def rowX : Row := ⟨"X", 0, 250000000, 50, "M"⟩

/-- The spec's worked example: 3 fully overlapping rows on chromosome `"1"`
with strengths 6, 8 and 12 cM. -/
def exC2 : List Row := [rowFull "Matti" 6, rowFull "Liisa" 8, rowFull "Kai" 12]

/-- A single full-width row of strength exactly 10 cM. -/
def ex10 : List Row := [rowFull "Matti" 10]

/-- Two full-width rows of total strength exactly 20 cM. -/
def ex20 : List Row := [rowFull "Matti" 12, rowFull "Liisa" 8]

/-- Ten full-width rows on chromosome `"1"`, one per match `"A"`, …, `"J"`,
with strengths 1, …, 10 cM. -/
def exNormals : List Row :=
  [rowFull "A" 1, rowFull "B" 2, rowFull "C" 3, rowFull "D" 4, rowFull "E" 5,
   rowFull "F" 6, rowFull "G" 7, rowFull "H" 8, rowFull "I" 9, rowFull "J" 10]

/-- `exNormals` plus an inverted row of 100 cM for an eleventh match `"K"`:
eleven distinct matches, so the truncation branch fires. -/
def exC9 : List Row := rowInv :: exNormals

theorem matchTotal_single {df : List Row} {m : String} {r : Row}
    (h : df.filter (fun x => x.matchName == m) = [r]) :
    matchTotal df m = r.centimorgans := by
  unfold matchTotal
  rw [h]
  simp

theorem topMatches_exC9 : topMatches exC9 = ["K", "J", "I", "H", "G"] := by
  have hA : matchTotal exC9 "A" = 1 :=
    matchTotal_single (show exC9.filter (fun x => x.matchName == "A")
      = [rowFull "A" 1] from by decide)
  have hB : matchTotal exC9 "B" = 2 :=
    matchTotal_single (show exC9.filter (fun x => x.matchName == "B")
      = [rowFull "B" 2] from by decide)
  have hC : matchTotal exC9 "C" = 3 :=
    matchTotal_single (show exC9.filter (fun x => x.matchName == "C")
      = [rowFull "C" 3] from by decide)
  have hD : matchTotal exC9 "D" = 4 :=
    matchTotal_single (show exC9.filter (fun x => x.matchName == "D")
      = [rowFull "D" 4] from by decide)
  have hE : matchTotal exC9 "E" = 5 :=
    matchTotal_single (show exC9.filter (fun x => x.matchName == "E")
      = [rowFull "E" 5] from by decide)
  have hF : matchTotal exC9 "F" = 6 :=
    matchTotal_single (show exC9.filter (fun x => x.matchName == "F")
      = [rowFull "F" 6] from by decide)
  have hG : matchTotal exC9 "G" = 7 :=
    matchTotal_single (show exC9.filter (fun x => x.matchName == "G")
      = [rowFull "G" 7] from by decide)
  have hH : matchTotal exC9 "H" = 8 :=
    matchTotal_single (show exC9.filter (fun x => x.matchName == "H")
      = [rowFull "H" 8] from by decide)
  have hI : matchTotal exC9 "I" = 9 :=
    matchTotal_single (show exC9.filter (fun x => x.matchName == "I")
      = [rowFull "I" 9] from by decide)
  have hJ : matchTotal exC9 "J" = 10 :=
    matchTotal_single (show exC9.filter (fun x => x.matchName == "J")
      = [rowFull "J" 10] from by decide)
  have hK : matchTotal exC9 "K" = 100 :=
    matchTotal_single (show exC9.filter (fun x => x.matchName == "K")
      = [rowInv] from by decide)
  unfold topMatches
  rw [show uniqueList (exC9.map Row.matchName)
      = ["K", "A", "B", "C", "D", "E", "F", "G", "H", "I", "J"] from by decide]
  norm_num [List.insertionSort, List.orderedInsert, byTotalDesc,
    hA, hB, hC, hD, hE, hF, hG, hH, hI, hJ, hK]

theorem survivors_exC9 :
    survivors exC9
      = [rowInv, rowFull "G" 7, rowFull "H" 8, rowFull "I" 9, rowFull "J" 10] := by
  rw [survivors_of_trunc (by decide), topMatches_exC9]
  decide

theorem survivors_exNormals : survivors exNormals = exNormals :=
  survivors_of_small (by decide)

theorem chromProfile_exC9 :
    chromProfile "1" (survivors exC9) = List.replicate gridSize 34 := by
  rw [survivors_exC9, chromProfile_cons_inverted (by norm_num [rowInv]) "1",
    chromProfile_of_full "1" _ (by decide)]
  congr 1
  rw [show ([rowFull "G" 7, rowFull "H" 8, rowFull "I" 9, rowFull "J" 10].filter
      (fun r => r.chromosome == "1"))
      = [rowFull "G" 7, rowFull "H" 8, rowFull "I" 9, rowFull "J" 10] from by decide]
  norm_num [rowFull]

theorem chromProfile_exNormals :
    chromProfile "1" (survivors exNormals) = List.replicate gridSize 55 := by
  rw [survivors_exNormals, chromProfile_of_full "1" _ (by decide)]
  congr 1
  rw [show (exNormals.filter (fun r => r.chromosome == "1")) = exNormals from by decide]
  norm_num [exNormals, rowFull]

theorem chromProfile_exC2 :
    chromProfile "1" (df_filtered 5 exC2) = List.replicate gridSize 26 := by
  rw [show df_filtered 5 exC2 = exC2 from by decide,
    chromProfile_of_full "1" _ (by decide)]
  congr 1
  rw [show exC2.filter (fun r => r.chromosome == "1") = exC2 from by decide]
  norm_num [exC2, rowFull]

theorem arrayMax_exC2 :
    arrayMax (chromProfile "1" (df_filtered 5 exC2)) = 26 := by
  rw [chromProfile_exC2, show gridSize = 499 + 1 from rfl, arrayMax_replicate]

theorem chromProfile_ex10 :
    chromProfile "1" ex10 = List.replicate gridSize 10 := by
  rw [chromProfile_of_full "1" _ (by decide)]
  congr 1
  rw [show ex10.filter (fun r => r.chromosome == "1") = ex10 from by decide]
  norm_num [ex10, rowFull]

theorem arrayMax_ex10 : arrayMax (chromProfile "1" ex10) = 10 := by
  rw [chromProfile_ex10, show gridSize = 499 + 1 from rfl, arrayMax_replicate]

theorem chromProfile_ex20 :
    chromProfile "1" ex20 = List.replicate gridSize 20 := by
  rw [chromProfile_of_full "1" _ (by decide)]
  congr 1
  rw [show ex20.filter (fun r => r.chromosome == "1") = ex20 from by decide]
  norm_num [ex20, rowFull]

theorem arrayMax_ex20 : arrayMax (chromProfile "1" ex20) = 20 := by
  rw [chromProfile_ex20, show gridSize = 499 + 1 from rfl, arrayMax_replicate]

/-! ## Terrain band lemmas -/

theorem terrainCategory_mountain_iff (v : ℚ) :
    terrainCategory v = "mountain" ↔ 20 < v := by
  unfold terrainCategory
  split_ifs with h1 h2 h3 <;> simp [h1]

theorem terrainCategory_hill_iff (v : ℚ) :
    terrainCategory v = "hill" ↔ 10 < v ∧ v ≤ 20 := by
  unfold terrainCategory
  split_ifs with h1 h2 h3
  · simp only [show ("mountain" = "hill") = False from by simp, false_iff, not_and]
    intro _
    rw [not_le]
    linarith
  · simp [h2, not_lt.mp h1]
  · simp [h2]
  · simp [h2]

theorem terrainCategory_island_iff (v : ℚ) :
    terrainCategory v = "island" ↔ 0 < v ∧ v ≤ 10 := by
  unfold terrainCategory
  split_ifs with h1 h2 h3
  · simp only [show ("mountain" = "island") = False from by simp, false_iff, not_and]
    intro _
    rw [not_le]
    linarith
  · simp only [show ("hill" = "island") = False from by simp, false_iff, not_and]
    intro _
    rw [not_le]
    linarith
  · simp [h3, not_lt.mp h2]
  · simp [h3]

theorem terrainCategory_sea_iff {v : ℚ} (hv : 0 ≤ v) :
    terrainCategory v = "sea" ↔ v = 0 := by
  unfold terrainCategory
  split_ifs with h1 h2 h3
  · simp only [show ("mountain" = "sea") = False from by simp, false_iff]
    intro h
    rw [h] at h1
    norm_num at h1
  · simp only [show ("hill" = "sea") = False from by simp, false_iff]
    intro h
    rw [h] at h2
    norm_num at h2
  · simp only [show ("island" = "sea") = False from by simp, false_iff]
    intro h
    rw [h] at h3
    norm_num at h3
  · simp [le_antisymm (not_lt.mp h3) hv]

theorem terrainColor_eq_color_of_category (v : ℚ) :
    terrainColor v = colorOfCategory (terrainCategory v) := by
  unfold terrainColor terrainCategory colorOfCategory
  split_ifs <;> simp_all

/-! ## The claims -/

/-- C1: Each chromosome's height profile lives on the same fixed grid of 500
positions evenly spaced from 0 to 250,000,000, and the accumulated value at
each grid position equals the sum of the strengths (Centimorgans) of all
surviving rows of that chromosome whose `[start, end]` interval covers the
position, independently of the order in which the rows are processed. -/
theorem C1_grid_accumulation (c : String) (rows rows2 : List Row) (i : ℕ)
    (hi : i < gridSize) (hperm : List.Perm rows rows2) :
    x_base.length = gridSize ∧
    gridPoint 0 = 0 ∧
    gridPoint (gridSize - 1) = max_position ∧
    gridPoint (i + 1) - gridPoint i = max_position / 499 ∧
    (chromProfile c rows).getD i 0
      = ((rows.filter (fun r => r.chromosome == c && decide (covers r i))).map
          Row.centimorgans).sum ∧
    (chromProfile c rows).getD i 0 = (chromProfile c rows2).getD i 0 := by
  refine ⟨by simp [x_base], gridPoint_zero, gridPoint_last,
    gridPoint_spacing i, chromProfile_getD c rows i hi, ?_⟩
  rw [chromProfile_getD c rows i hi, chromProfile_getD c rows2 i hi]
  exact ((hperm.filter _).map _).sum_eq

/-- Witness for C1 at a concrete input. -/
theorem C1_witness :
    0 < gridSize ∧ List.Perm exC2 exC2.reverse ∧
    (chromProfile "1" exC2).getD 0 0
      = ((exC2.filter (fun r => r.chromosome == "1" && decide (covers r 0))).map
          Row.centimorgans).sum :=
  ⟨by norm_num [gridSize], (List.reverse_perm exC2).symm,
   (C1_grid_accumulation "1" exC2 exC2.reverse 0 (by norm_num [gridSize])
     (List.reverse_perm exC2).symm).2.2.2.2.1⟩

/-- C2: The terrain category is a pure function of the chromosome's maximum
accumulated height, classified once per chromosome into the bands
mountain (`> 20`), hill (`10 < h ≤ 20`), island (`0 < h ≤ 10`), sea (`= 0`);
the classification only selects the marker colour and never alters the
height values; and the spec's worked example (3 fully overlapping rows on
chromosome "1" of 6, 8, 12 cM at threshold 5) has maximum height 26 and
category "mountain". -/
theorem C2_terrain_classification (v : ℚ) (hv : 0 ≤ v) :
    terrainColor v = colorOfCategory (terrainCategory v) ∧
    (terrainCategory v = "mountain" ↔ 20 < v) ∧
    (terrainCategory v = "hill" ↔ 10 < v ∧ v ≤ 20) ∧
    (terrainCategory v = "island" ↔ 0 < v ∧ v ≤ 10) ∧
    (terrainCategory v = "sea" ↔ v = 0) ∧
    (∀ n d, (chromTraces n d).head?
      = some (Trace.line x_base (23 - (n : ℤ)) (chromProfile (toString n) d)
          (lineName (toString n)))) ∧
    (∀ n d xs yy zs col txt, Trace.markers xs yy zs col txt ∈ chromTraces n d →
      col = terrainColor (arrayMax (chromProfile (toString n) d))) ∧
    arrayMax (chromProfile "1" (df_filtered 5 exC2)) = 26 ∧
    terrainCategory (arrayMax (chromProfile "1" (df_filtered 5 exC2)))
      = "mountain" := by
  refine ⟨terrainColor_eq_color_of_category v, terrainCategory_mountain_iff v,
    terrainCategory_hill_iff v, terrainCategory_island_iff v,
    terrainCategory_sea_iff hv, ?_, ?_, arrayMax_exC2, ?_⟩
  · intro n d
    unfold chromTraces
    split <;> rfl
  · intro n d xs yy zs col txt hmem
    unfold chromTraces at hmem
    split at hmem
    · simp at hmem
    · rcases List.mem_cons.mp hmem with hbad | hmem2
      · exact absurd hbad (by simp)
      · have h2 := List.mem_singleton.mp hmem2
        injection h2 with e1 e2 e3 e4 e5
  · rw [arrayMax_exC2, terrainCategory_mountain_iff]
    norm_num

/-- Witness for C2 at a concrete input. -/
theorem C2_witness :
    (0 : ℚ) ≤ 26 ∧ (terrainCategory 26 = "mountain" ↔ 20 < (26 : ℚ)) :=
  ⟨by norm_num, (C2_terrain_classification 26 (by norm_num)).2.1⟩

/-- C3 counterexample: a chromosome whose maximum accumulated height is
exactly 10 is classified "island", not "hill" as the claim states
(`elif color_val > 10` fails at exactly 10). -/
theorem C3_counterexample :
    arrayMax (chromProfile "1" ex10) = 10 ∧
    terrainCategory (arrayMax (chromProfile "1" ex10)) = "island" ∧
    terrainCategory (arrayMax (chromProfile "1" ex10)) ≠ "hill" := by
  refine ⟨arrayMax_ex10, ?_, ?_⟩
  · rw [arrayMax_ex10, terrainCategory_island_iff]
    norm_num
  · rw [arrayMax_ex10, (terrainCategory_island_iff 10).mpr (by norm_num)]
    simp

/-- C3 (amended): the band boundaries are half-open the other way at 10: a
chromosome whose maximum accumulated height is exactly 10 is classified
"island" (not "hill"), while exactly 20 is classified "hill" (not
"mountain"). -/
theorem C3_amended :
    terrainCategory (arrayMax (chromProfile "1" ex10)) = "island" ∧
    terrainCategory (arrayMax (chromProfile "1" ex10)) ≠ "hill" ∧
    terrainCategory (arrayMax (chromProfile "1" ex20)) = "hill" ∧
    terrainCategory (arrayMax (chromProfile "1" ex20)) ≠ "mountain" := by
  rw [arrayMax_ex10, arrayMax_ex20,
    (terrainCategory_island_iff 10).mpr (by norm_num),
    (terrainCategory_hill_iff 20).mpr (by norm_num)]
  refine ⟨rfl, by simp, rfl, by simp⟩

/-- C4: if the number of distinct match identifiers exceeds 10, a truncation
notice fires and exactly 5 match groups survive: the 5 of greatest total
accumulated strength, listed in descending order of total, and all rows of
unselected groups are discarded; with 10 or fewer distinct identifiers no
truncation occurs. -/
theorem C4_truncation (rows : List Row) :
    (10 < (uniqueList (rows.map Row.matchName)).length →
      truncation_warning rows = true ∧
      (topMatches rows).length = 5 ∧
      (uniqueList ((survivors rows).map Row.matchName)).length = 5 ∧
      (∀ r, r ∈ survivors rows ↔ r ∈ rows ∧ r.matchName ∈ topMatches rows) ∧
      (topMatches rows).Pairwise (byTotalDesc rows) ∧
      (∀ m ∈ topMatches rows, ∀ m', m' ∈ uniqueList (rows.map Row.matchName) →
        m' ∉ topMatches rows → matchTotal rows m' ≤ matchTotal rows m)) ∧
    ((uniqueList (rows.map Row.matchName)).length ≤ 10 →
      survivors rows = rows ∧ truncation_warning rows = false) := by
  constructor
  · intro h
    exact ⟨decide_eq_true h, topMatches_length h, length_unique_survivors h,
      fun r => mem_survivors_of_trunc h, topMatches_sorted rows,
      fun m hm m' hm' hnot => topMatches_ge hm hm' hnot⟩
  · intro hle
    exact ⟨survivors_of_small (not_lt.mpr hle),
      decide_eq_false (not_lt.mpr hle)⟩

/-- Witness for C4 at a concrete input with 11 distinct matches. -/
theorem C4_witness :
    10 < (uniqueList (exC9.map Row.matchName)).length ∧
    truncation_warning exC9 = true ∧
    (topMatches exC9).length = 5 :=
  ⟨by decide, ((C4_truncation exC9).1 (by decide)).1,
   ((C4_truncation exC9).1 (by decide)).2.1⟩

/-- C5: for every threshold t in the integer range [1, 20], rows with
strength strictly below t never appear after filtering (and hence never
reach the grid stage), and rows with strength at least t are retained. -/
theorem C5_threshold_filter (rows : List Row) (t : ℤ) (hlow : 1 ≤ t)
    (hhigh : t ≤ 20) :
    (∀ r, r ∈ df_filtered (t : ℚ) rows ↔ r ∈ rows ∧ (t : ℚ) ≤ r.centimorgans) ∧
    (∀ r ∈ rows, r.centimorgans < (t : ℚ) → r ∉ df_filtered (t : ℚ) rows) ∧
    (∀ r ∈ survivors (df_filtered (t : ℚ) rows), (t : ℚ) ≤ r.centimorgans) := by
  have hmem : ∀ r, r ∈ df_filtered (t : ℚ) rows ↔
      r ∈ rows ∧ (t : ℚ) ≤ r.centimorgans := by
    intro r
    unfold df_filtered
    simp [List.mem_filter]
  refine ⟨hmem, ?_, ?_⟩
  · intro r _ hlt hcon
    exact absurd ((hmem r).mp hcon).2 (not_le.mpr hlt)
  · intro r hr
    exact ((hmem r).mp (survivors_subset _ r hr)).2

/-- Witness for C5 at a concrete input. -/
theorem C5_witness :
    (1 : ℤ) ≤ 5 ∧ (5 : ℤ) ≤ 20 ∧
    (rowFull "Matti" 6 ∈ df_filtered ((5 : ℤ) : ℚ) exC2 ↔
      rowFull "Matti" 6 ∈ exC2 ∧ ((5 : ℤ) : ℚ) ≤ (rowFull "Matti" 6).centimorgans) :=
  ⟨by norm_num, by norm_num,
   (C5_threshold_filter exC2 5 (by norm_num) (by norm_num)).1 _⟩

theorem load_data_failure (m : String) :
    load_data (ParseResult.failure m) = none := rfl

theorem load_data_success (h : List String) (rows : List Row) :
    load_data (ParseResult.success h rows)
      = if required_cols.all (fun c => ((h.map (fun s => s.trim)).contains c))
        then some rows else none := rfl

theorem all_contains_iff (h : List String) :
    (required_cols.all (fun c => ((h.map (fun s => s.trim)).contains c)) = true) ↔
    ∀ c ∈ required_cols, c ∈ h.map (fun s => s.trim) := by
  rw [List.all_eq_true]
  constructor
  · intro hx c hc
    simpa using hx c hc
  · intro hx c hc
    simpa using hx c hc

/-- C6: `load_data` returns an error (no rows) iff the file fails to parse
or a required column (after whitespace-trimming of the header labels) is
missing; in every error case no rows are returned and no scene is produced;
otherwise it returns the parsed rows. -/
theorem C6_load_validation (p : ParseResult) (t : ℚ) :
    (load_data p = none ↔
      (∃ m, p = ParseResult.failure m) ∨
      (∃ h rows, p = ParseResult.success h rows ∧
        ¬ ∀ c ∈ required_cols, c ∈ h.map (fun s => s.trim))) ∧
    (load_data p = none → scene_of p t = none) ∧
    (∀ h rows, (∀ c ∈ required_cols, c ∈ h.map (fun s => s.trim)) →
      load_data (ParseResult.success h rows) = some rows) := by
  refine ⟨?_, ?_, ?_⟩
  · cases p with
    | failure m =>
        rw [load_data_failure]
        exact iff_of_true rfl (Or.inl ⟨m, rfl⟩)
    | success h rows =>
        rw [load_data_success]
        constructor
        · intro hnone
          split at hnone
          · exact absurd hnone (by simp)
          · rename_i hc
            exact Or.inr ⟨h, rows, rfl,
              fun hforall => hc ((all_contains_iff h).mpr hforall)⟩
        · intro hor
          rcases hor with ⟨m, hm⟩ | ⟨h2, rows2, heq, hmiss⟩
          · exact absurd hm (by simp)
          · obtain ⟨rfl, rfl⟩ : h = h2 ∧ rows = rows2 := by
              injection heq with e1 e2
              exact ⟨e1, e2⟩
            rw [if_neg (fun hc => hmiss ((all_contains_iff h).mp hc))]
  · intro hnone
    unfold scene_of
    rw [hnone]
    rfl
  · intro h rows hforall
    rw [load_data_success, if_pos ((all_contains_iff h).mpr hforall)]

/-- Witness for C6 at a concrete input. -/
theorem C6_witness :
    load_data (ParseResult.failure "boom") = none ∧
    scene_of (ParseResult.failure "boom") 5 = none :=
  ⟨rfl, (C6_load_validation (ParseResult.failure "boom") 5).2.1 rfl⟩

/-- C7: for every chromosome the builder emits a line trace over the full
grid at depth 23 - n (so chromosome 1 renders at the top), plus a marker
trace whose points are exactly the grid positions of strictly positive
accumulated height, each carrying the hover label
`"Chr {chromosome}: {height:.1f} cM"`. -/
theorem C7_trace_emission (rows : List Row) (n : ℕ) (h1 : 1 ≤ n)
    (h2 : n ≤ 22) :
    Trace.line x_base (23 - (n : ℤ)) (chromProfile (toString n) (survivors rows))
      (lineName (toString n)) ∈ create_topography rows ∧
    (∀ i, i ∈ positiveIndices (chromProfile (toString n) (survivors rows)) ↔
      i < gridSize ∧
        0 < (chromProfile (toString n) (survivors rows)).getD i 0) ∧
    (positiveIndices (chromProfile (toString n) (survivors rows)) ≠ [] →
      Trace.markers
        ((positiveIndices (chromProfile (toString n) (survivors rows))).map
          gridPoint)
        (23 - (n : ℤ))
        ((positiveIndices (chromProfile (toString n) (survivors rows))).map
          (fun i => (chromProfile (toString n) (survivors rows)).getD i 0))
        (terrainColor (arrayMax (chromProfile (toString n) (survivors rows))))
        ((positiveIndices (chromProfile (toString n) (survivors rows))).map
          (fun i => markerText (toString n)
            ((chromProfile (toString n) (survivors rows)).getD i 0)))
        ∈ create_topography rows) ∧
    markerText "1" 26 = "Chr 1: 26.0 cM" := by
  refine ⟨?_, ?_, ?_, ?_⟩
  · apply chromTraces_mem_create h1 h2
    unfold chromTraces
    split
    · exact List.mem_singleton.mpr rfl
    · exact List.mem_cons_self _ _
  · intro i
    rw [mem_positiveIndices, chromProfile_length]
  · intro hne
    apply chromTraces_mem_create h1 h2
    unfold chromTraces
    rw [if_neg (by simpa [List.isEmpty_iff] using hne)]
    exact List.mem_cons_of_mem _ (List.mem_singleton.mpr rfl)
  · have hf : fmt1 26 = "26.0" := by
      have hr : roundHalfEven ((26 : ℚ) * 10) = 260 := by
        unfold roundHalfEven
        norm_num
      unfold fmt1
      rw [hr]
      rfl
    unfold markerText
    rw [hf]
    rfl

/-- Witness for C7 at a concrete input. -/
theorem C7_witness :
    (1 : ℕ) ≤ 1 ∧ (1 : ℕ) ≤ 22 ∧
    Trace.line x_base (23 - ((1 : ℕ) : ℤ))
      (chromProfile (toString 1) (survivors exC2)) (lineName (toString 1))
      ∈ create_topography exC2 :=
  ⟨le_refl 1, by norm_num,
   (C7_trace_emission exC2 1 (le_refl 1) (by norm_num)).1⟩

/-- C8: the pipeline (loader, threshold filter, topography builder) is
deterministic: equal input files and equal thresholds produce identical
scenes. -/
theorem C8_deterministic (p p2 : ParseResult) (t t2 : ℚ) (hp : p = p2)
    (ht : t = t2) : scene_of p t = scene_of p2 t2 := by
  rw [hp, ht]

/-- Witness for C8 at a concrete input. -/
theorem C8_witness :
    ParseResult.failure "e" = ParseResult.failure "e" ∧
    scene_of (ParseResult.failure "e") 5 = scene_of (ParseResult.failure "e") 5 :=
  ⟨rfl, C8_deterministic (ParseResult.failure "e") (ParseResult.failure "e")
    5 5 rfl rfl⟩

/-- C9 counterexample: a row with start > end does contribute 0 to every
grid position here, yet removing it changes the scene, because the row
still counts towards the distinct-match total and the top-5 selection:
with it, 11 matches trigger truncation and chromosome 1 peaks at 34 cM;
without it, all ten 1..10 cM rows survive and chromosome 1 peaks at 55 cM. -/
theorem C9_counterexample :
    rowInv.endLocation < rowInv.startLocation ∧
    exC9 = rowInv :: exNormals ∧
    create_topography exC9 ≠ create_topography exNormals := by
  refine ⟨by norm_num [rowInv], rfl, ?_⟩
  intro hEq
  have h1 := firstLineZ_create exC9
  have h2 := firstLineZ_create exNormals
  rw [chromProfile_exC9] at h1
  rw [chromProfile_exNormals] at h2
  rw [hEq, h2] at h1
  have h6 := congrArg (fun l : List ℚ => l.getD 0 0) (Option.some.inj h1)
  simp only at h6
  rw [getD_replicate_of_lt 55 (show (0 : ℕ) < gridSize from by norm_num [gridSize]),
    getD_replicate_of_lt 34 (show (0 : ℕ) < gridSize from by norm_num [gridSize])] at h6
  norm_num at h6

/-- C9 (amended): a row with start strictly greater than end contributes 0
to every grid position of every chromosome's height profile, and provided
the collection has at most 10 distinct match identifiers (so the top-5
truncation cannot be affected), the scene is identical to the one built
with that row removed. -/
theorem C9_inverted_row (r : Row) (rows : List Row)
    (h : r.endLocation < r.startLocation) :
    (∀ c, chromProfile c (r :: rows) = chromProfile c rows) ∧
    ((uniqueList ((r :: rows).map Row.matchName)).length ≤ 10 →
      create_topography (r :: rows) = create_topography rows) := by
  refine ⟨fun c => chromProfile_cons_inverted h c rows, ?_⟩
  intro hle
  have hle2 : (uniqueList (rows.map Row.matchName)).length ≤ 10 := by
    have hmono := length_uniqueList_le_cons r.matchName (rows.map Row.matchName)
    rw [List.map_cons] at hle
    exact le_trans hmono hle
  unfold create_topography
  rw [survivors_of_small (not_lt.mpr hle), survivors_of_small (not_lt.mpr hle2)]
  congr 1
  apply List.map_congr_left
  intro i _
  exact chromTraces_congr (chromProfile_cons_inverted h _ rows)

/-- Witness for C9 (amended) at a concrete input. -/
theorem C9_witness :
    rowInv.endLocation < rowInv.startLocation ∧
    (uniqueList (([rowInv] : List Row).map Row.matchName)).length ≤ 10 ∧
    chromProfile "1" [rowInv] = chromProfile "1" [] ∧
    create_topography [rowInv] = create_topography [] :=
  ⟨by norm_num [rowInv], by decide,
   (C9_inverted_row rowInv [] (by norm_num [rowInv])).1 "1",
   (C9_inverted_row rowInv [] (by norm_num [rowInv])).2 (by decide)⟩

/-- C10: the scene always contains exactly one line trace per chromosome
label "1", ..., "22", in that order (an empty collection gives all-zero
profiles), and a row whose chromosome label is outside those 22 strings
contributes to no chromosome's traces. -/
theorem C10_chromosome_traces (rows d : List Row) (r : Row) (n : ℕ)
    (h1 : 1 ≤ n) (h2 : n ≤ 22) (hr : r.chromosome ∉ chromosomes) :
    (create_topography rows).filter isLineB
      = (List.range 22).map (fun i =>
          Trace.line x_base (23 - ((i + 1 : ℕ) : ℤ))
            (chromProfile (toString (i + 1)) (survivors rows))
            (lineName (toString (i + 1)))) ∧
    (∀ c, chromProfile c [] = List.replicate gridSize 0) ∧
    chromTraces n (r :: d) = chromTraces n d := by
  refine ⟨create_topography_filter_line rows, fun c => rfl, ?_⟩
  apply chromTraces_congr
  apply chromProfile_cons_ne
  intro hEq
  exact hr (by rw [hEq]; exact toString_mem_chromosomes h1 h2)

/-- Witness for C10 at a concrete input. -/
theorem C10_witness :
    (1 : ℕ) ≤ 1 ∧ (1 : ℕ) ≤ 22 ∧ rowX.chromosome ∉ chromosomes ∧
    chromTraces 1 [rowX] = chromTraces 1 [] :=
  ⟨le_refl 1, by norm_num, by decide,
   (C10_chromosome_traces [] [] rowX 1 (le_refl 1) (by norm_num) (by decide)).2.2⟩

end Geeni
